import Mathlib

/-
  Verification of the DDS sine generator (src/Project/dds_sin/dds_sin.ino).

  Shallow embedding: the AVR 16-bit phase accumulator and increment are
  modelled as natural numbers reduced modulo 65536 where the C code relies
  on uint16_t wraparound; the 8-bit table index is reduced modulo 256 where
  the C code casts to uint8_t; the sine table is the literal data from the
  source; the timer-2 compare-A interrupt service routine is a state
  transition function; main initialization is a total function producing
  the running state (the source performs no configuration validation).
-/

set_option maxRecDepth 10000

namespace DDS

/-- Desired output frequency in Hz, the macro F_DDS_OUT in the source. -/
def F_DDS_OUT : ℕ := 2500

/-- DDS update (tick) frequency in Hz, the macro F_UPDATE in the source. -/
def F_UPDATE : ℕ := 50000

/-- SINE_TABLE from the source: 256 uint8_t amplitude samples covering one
sine cycle, values in 0..255. Transcribed literally. -/
def SINE_TABLE : List ℕ :=
  [128, 131, 134, 137, 140, 143, 146, 149, 152, 156, 159, 162, 165, 168, 171, 174,
   176, 179, 182, 185, 188, 191, 193, 196, 199, 201, 204, 206, 209, 211, 213, 216,
   218, 220, 222, 224, 226, 228, 230, 232, 234, 236, 237, 239, 240, 242, 243, 245,
   246, 247, 248, 249, 250, 251, 252, 252, 253, 254, 254, 255, 255, 255, 255, 255,
   255, 255, 255, 255, 255, 255, 254, 254, 253, 252, 252, 251, 250, 249, 248, 247,
   246, 245, 243, 242, 240, 239, 237, 236, 234, 232, 230, 228, 226, 224, 222, 220,
   218, 216, 213, 211, 209, 206, 204, 201, 199, 196, 193, 191, 188, 185, 182, 179,
   176, 174, 171, 168, 165, 162, 159, 156, 152, 149, 146, 143, 140, 137, 134, 131,
   127, 124, 121, 118, 115, 112, 109, 106, 103, 99, 96, 93, 90, 87, 84, 81,
   79, 76, 73, 70, 67, 64, 62, 59, 56, 54, 51, 49, 46, 44, 42, 39,
   37, 35, 33, 31, 29, 27, 25, 23, 21, 19, 18, 16, 15, 13, 12, 10,
   9, 8, 7, 6, 5, 4, 3, 3, 2, 1, 1, 0, 0, 0, 0, 0,
   0, 0, 0, 0, 0, 0, 1, 1, 2, 3, 3, 4, 5, 6, 7, 8,
   9, 10, 12, 13, 15, 16, 18, 19, 21, 23, 25, 27, 29, 31, 33, 35,
   37, 39, 42, 44, 46, 49, 51, 54, 56, 59, 62, 64, 67, 70, 73, 76,
   79, 81, 84, 87, 90, 93, 96, 99, 103, 106, 109, 112, 115, 118, 121, 124]

/-- Table access as performed by the tick handler: the C index variable is a
uint8_t, so any index wraps modulo 256 before the array access. -/
def lookup (i : ℕ) : ℕ := SINE_TABLE.getD (i % 256) 0

/-- The phase-increment computation from main:
`phaseInc = F_DDS_OUT * 65536 / F_UPDATE;`.
C integer division truncates toward zero (here the operands are nonnegative,
so it is floor division), and the result is stored into the uint16_t
phaseInc, hence the final reduction modulo 65536. -/
def phaseInc_compute (fout ftick : ℕ) : ℕ := fout * 65536 / ftick % 65536

/-- The phase advance performed by the interrupt service routine:
`phaseReg += phaseInc;` on a uint16_t, i.e. wraparound addition modulo 2^16. -/
def advance (inc phase : ℕ) : ℕ := (phase + inc) % 65536

/-- The derived table index: `i = (uint8_t)(phaseReg >> 8);` — the upper
8 bits of the 16-bit phase register, truncated to a uint8_t. -/
def tableIndex (phase : ℕ) : ℕ := (phase >>> 8) % 256

/-- Program state touched by the synthesis code: the 16-bit phase register
and increment, the output compare register OCR0A receiving the amplitude,
the sine table (a mutable global array in the C source), and a flag
recording that sei() has run and the idle loop has been entered. -/
structure DDSState where
  phaseReg : ℕ
  phaseInc : ℕ
  ocr0a : ℕ
  table : List ℕ
  running : Bool

/-- ISR(TIMER2_COMPA_vect) from the source: advance the phase register by
the increment, take the upper 8 bits as index, and write that sine-table
entry to OCR0A. Nothing else is touched; there is no return value. -/
def isr (s : DDSState) : DDSState :=
  let p := advance s.phaseInc s.phaseReg
  { s with phaseReg := p, ocr0a := s.table.getD (tableIndex p) 0 }

/-- Initialization from main, parameterized by the two configuration
macros: OCR0A starts at 0, phaseReg = 0, phaseInc is computed by truncating
division, then sei() is executed and the idle loop entered (running = true).
The source performs no validation of the configuration at any point. -/
def dds_init (fout ftick : ℕ) : DDSState :=
  { phaseReg := 0
    phaseInc := phaseInc_compute fout ftick
    ocr0a := 0
    table := SINE_TABLE
    running := true }

/-- Modelled from the spec: rounding division round(a / b), rounding halves
up. The spec states the increment formula with round; the source uses
truncating division, so this definition exists only to state that claim. -/
def roundDiv (a b : ℕ) : ℕ := (2 * a + b) / (2 * b)

/-- C1 counterexample: with tick_rate 50000, output_frequency 2500 and
W = 16, the source computes the increment by truncating C integer division,
giving 3276, while round(2500 * 65536 / 50000) = 3277; the claimed value
3277 is not what the code computes. -/
theorem c1_round_counterexample :
    phaseInc_compute 2500 50000 = 3276 ∧
    roundDiv (2500 * 65536) 50000 = 3277 ∧
    phaseInc_compute 2500 50000 ≠ 3277 := by
  decide

/-- C1 amended: the Phase Increment is computed at initialization by
truncating (floor) integer division, increment = floor(F_out * 2^W / F_tick);
for tick_rate 50000, output_frequency 2500 and W = 16 this gives
floor(2500 * 65536 / 50000) = 3276. -/
theorem c1_increment_truncating :
    (dds_init 2500 50000).phaseInc = 2500 * 65536 / 50000 ∧
    (dds_init 2500 50000).phaseInc = 3276 := by
  decide

/-- C2 counterexample: a configuration whose computed increment is zero
(output frequency 0) is not rejected — initialization still produces the
running state with phaseInc = 0 — and a configuration above the
Nyquist-equivalent limit (40000 Hz at a 50000 Hz tick rate) is likewise
accepted into the running state. -/
theorem c2_no_rejection_counterexample :
    (dds_init 0 50000).phaseInc = 0 ∧
    (dds_init 0 50000).running = true ∧
    (dds_init 40000 50000).running = true := by
  decide

/-- C2 amended: the source performs no configuration validation at all —
for every output frequency and tick rate, including those whose increment
is zero or whose frequency exceeds the Nyquist-equivalent limit,
initialization unconditionally computes the increment and enters the
running state; nothing is rejected. -/
theorem c2_init_unconditional :
    ∀ fout ftick : ℕ,
      (dds_init fout ftick).running = true ∧
      (dds_init fout ftick).phaseInc = phaseInc_compute fout ftick :=
  fun _ _ => ⟨rfl, rfl⟩

/-- C3 counterexample: at index 0, table[0] + table[128] = 128 + 127 = 255,
which is not 2 * 128 = 256, so the table is not symmetric about mid-scale
128 in the claimed sense. -/
theorem c3_symmetry_counterexample :
    SINE_TABLE.getD 0 0 + SINE_TABLE.getD (128 + 0) 0 = 255 ∧
    ¬ (SINE_TABLE.getD 0 0 + SINE_TABLE.getD (128 + 0) 0 = 2 * 128) := by
  decide

/-- C3 amended: for every index i in [0, 128), table[i] + table[128 + i]
= 255 — the half-cycle pairs sum to 2 * 127.5, the true midpoint of the
0..255 range, rather than 2 * 128 — and index arithmetic wraps modulo 256
(the index is a uint8_t), so table[256] denotes table[0]. -/
theorem c3_symmetry_sum255 :
    (∀ i : Fin 128,
       SINE_TABLE.getD i.val 0 + SINE_TABLE.getD (128 + i.val) 0 = 255) ∧
    lookup 256 = lookup 0 := by
  decide

/-- C4 counterexample: with the configured increment 3276,
round(2^16 / 3276) = 20, but starting from phase 0, twenty applications of
the advance step land on 65520, not back at 0. -/
theorem c4_round_counterexample :
    roundDiv 65536 3276 = 20 ∧
    (advance 3276)^[20] 0 = 65520 ∧
    (advance 3276)^[20] 0 ≠ 0 := by
  decide

/-- Iterating the wraparound advance k times adds k increments modulo 2^16. -/
theorem advance_iterate (inc : ℕ) :
    ∀ (k phase : ℕ), phase < 65536 →
      (advance inc)^[k] phase = (phase + k * inc) % 65536 := by
  intro k
  induction k with
  | zero =>
    intro p hp
    simp [Nat.mod_eq_of_lt hp]
  | succ k ih =>
    intro p hp
    rw [Function.iterate_succ_apply]
    have h1 : advance inc p < 65536 := Nat.mod_lt _ (by norm_num)
    rw [ih _ h1]
    unfold advance
    rw [Nat.mod_add_mod]
    congr 1
    ring

/-- C4 amended: the configured increment is 3276; the true period of the
phase accumulator is 2^16 / gcd(increment, 2^16) = 16384 ticks (not
round(2^16 / increment) = 20): from every starting value below 2^16,
exactly that many applications of the advance step return the accumulator
to its starting value. -/
theorem c4_gcd_period :
    (dds_init 2500 50000).phaseInc = 3276 ∧
    ∀ phase : ℕ, phase < 2 ^ 16 →
      (advance 3276)^[2 ^ 16 / Nat.gcd 3276 (2 ^ 16)] phase = phase := by
  refine ⟨by decide, ?_⟩
  intro p hp
  have hp65 : p < 65536 := lt_of_lt_of_le hp (by norm_num)
  rw [show 2 ^ 16 / Nat.gcd 3276 (2 ^ 16) = 16384 from by norm_num]
  rw [advance_iterate 3276 16384 p hp65]
  rw [show 16384 * 3276 = 819 * 65536 from by norm_num]
  rw [Nat.add_mul_mod_self_right]
  exact Nat.mod_eq_of_lt hp65

/-- C4 witness: the amended periodicity theorem applied at starting
phase 0. -/
theorem c4_gcd_period_witness :
    (0 : ℕ) < 2 ^ 16 ∧
    (advance 3276)^[2 ^ 16 / Nat.gcd 3276 (2 ^ 16)] 0 = 0 :=
  ⟨by norm_num, c4_gcd_period.2 0 (by norm_num)⟩

/-- C5: on each invocation the tick handler advances the phase register by
exactly one increment (wraparound addition), derives the table index from
the new phase, and forwards that single table entry unchanged to OCR0A. -/
theorem c5_tick_effects :
    ∀ s : DDSState,
      (isr s).phaseReg = (s.phaseReg + s.phaseInc) % 65536 ∧
      (isr s).ocr0a = s.table.getD (tableIndex (isr s).phaseReg) 0 :=
  fun _ => ⟨rfl, rfl⟩

/-- C6: for every current phase and increment, the advance step yields
(phase + increment) mod 2^16; the result is always below 2^16 (it is total,
with no error condition), and on overflow it wraps around — e.g. at phase
65000 with increment 3276 the result is 65000 + 3276 - 65536 = 2740 rather
than a saturated 65535. -/
theorem c6_advance_wraps :
    (∀ inc phase : ℕ, advance inc phase = (phase + inc) % 2 ^ 16) ∧
    (∀ inc phase : ℕ, advance inc phase < 2 ^ 16) ∧
    advance 3276 65000 = 65000 + 3276 - 65536 := by
  exact ⟨fun inc p => by norm_num [advance],
    fun inc p => Nat.mod_lt _ (by norm_num), by decide⟩

/-- C7: for every phase below 2^16 the derived table index equals
phase >>> (16 - 8), the top 8 bits of the accumulator; it lies below 256
and below the length of SINE_TABLE, so every table access made by the tick
handler is in bounds. -/
theorem c7_index_bounds :
    ∀ phase : ℕ, phase < 2 ^ 16 →
      tableIndex phase = phase >>> (16 - 8) ∧
      tableIndex phase < 256 ∧
      tableIndex phase < SINE_TABLE.length := by
  intro p hp
  have h8 : p >>> 8 = p / 256 := by
    rw [Nat.shiftRight_eq_div_pow]
  have hp65 : p < 65536 := lt_of_lt_of_le hp (by norm_num)
  have hlt : p >>> 8 < 256 := by
    rw [h8]
    omega
  have hidx : tableIndex p = p >>> 8 := Nat.mod_eq_of_lt hlt
  refine ⟨by rw [hidx], by rw [hidx]; exact hlt, ?_⟩
  rw [show SINE_TABLE.length = 256 from by decide, hidx]
  exact hlt

/-- C7 witness: the index-derivation theorem applied at the extreme phase
value 65535. -/
theorem c7_index_bounds_witness :
    (65535 : ℕ) < 2 ^ 16 ∧
    (tableIndex 65535 = 65535 >>> (16 - 8) ∧
     tableIndex 65535 < 256 ∧
     tableIndex 65535 < SINE_TABLE.length) :=
  ⟨by norm_num, c7_index_bounds 65535 (by norm_num)⟩

/-- C8: for every output frequency and tick rate with
output_frequency < tick_rate / 2, the frequency realized by the computed
increment, increment * tick_rate / 2^16, differs from the requested
frequency by at most tick_rate / 2^16. -/
theorem c8_quantization_bound :
    ∀ fout ftick : ℕ, 0 < ftick → 2 * fout < ftick →
      |((phaseInc_compute fout ftick : ℚ) * ftick / 2 ^ 16 - fout)| ≤
        (ftick : ℚ) / 2 ^ 16 := by
  intro fout ftick hpos hnyq
  have hqlt : fout * 65536 / ftick < 65536 := by
    apply Nat.div_lt_of_lt_mul
    nlinarith
  have hq : phaseInc_compute fout ftick = fout * 65536 / ftick :=
    Nat.mod_eq_of_lt hqlt
  have hdm := Nat.div_add_mod (fout * 65536) ftick
  have hrlt : fout * 65536 % ftick < ftick := Nat.mod_lt _ hpos
  have hcast : (ftick : ℚ) * (fout * 65536 / ftick : ℕ) +
      ((fout * 65536 % ftick : ℕ) : ℚ) = (fout : ℚ) * 65536 := by
    exact_mod_cast congrArg (fun n : ℕ => (n : ℚ)) hdm
  have hrcast : ((fout * 65536 % ftick : ℕ) : ℚ) < (ftick : ℚ) := by
    exact_mod_cast hrlt
  have hX : ((fout * 65536 / ftick : ℕ) : ℚ) * ftick / 2 ^ 16 =
      (fout : ℚ) - ((fout * 65536 % ftick : ℕ) : ℚ) / 2 ^ 16 := by
    field_simp
    nlinarith [hcast]
  rw [hq, hX]
  have hneg : (fout : ℚ) - ((fout * 65536 % ftick : ℕ) : ℚ) / 2 ^ 16 - fout =
      -(((fout * 65536 % ftick : ℕ) : ℚ) / 2 ^ 16) := by ring
  rw [hneg, abs_neg, abs_of_nonneg (by positivity)]
  gcongr

/-- C8 witness: the quantization bound applied at the configured pair
output_frequency = 2500, tick_rate = 50000. -/
theorem c8_quantization_bound_witness :
    ((0 : ℕ) < 50000 ∧ 2 * 2500 < 50000) ∧
    |((phaseInc_compute 2500 50000 : ℚ) * 50000 / 2 ^ 16 - 2500)| ≤
      (50000 : ℚ) / 2 ^ 16 :=
  ⟨⟨by norm_num, by norm_num⟩,
   c8_quantization_bound 2500 50000 (by norm_num) (by norm_num)⟩

/-- C9: the tick handler never mutates the sine table, the phase increment,
or the running flag — it changes only the phase register and the forwarded
output value. -/
theorem c9_frame :
    ∀ s : DDSState,
      (isr s).phaseInc = s.phaseInc ∧
      (isr s).table = s.table ∧
      (isr s).running = s.running :=
  fun _ => ⟨rfl, rfl, rfl⟩

/-- C10: the phase advance happens before the table lookup — the amplitude
written on a tick is table[((phase_before + increment) mod 2^16) >> 8] —
and from the initial state of main (phase 0, increment 3276) the first tick
emits table[12] = 165, not the mid-scale entry table[0] = 128. -/
theorem c10_advance_before_lookup :
    (∀ s : DDSState,
       (isr s).ocr0a =
         s.table.getD (tableIndex ((s.phaseReg + s.phaseInc) % 65536)) 0) ∧
    (isr (dds_init 2500 50000)).ocr0a = SINE_TABLE.getD 12 0 ∧
    SINE_TABLE.getD 12 0 = 165 ∧
    SINE_TABLE.getD 0 0 = 128 ∧
    (isr (dds_init 2500 50000)).ocr0a ≠ SINE_TABLE.getD 0 0 :=
  ⟨fun _ => rfl, by decide, by decide, by decide, by decide⟩

end DDS
